import Mathlib

/-!
Shallow embedding of the animation-set manager of `desktop_pet/src/puppy_pet.py`
(class `GifManager` and the manager-driving methods of `PetWindow`).

Modelling conventions:
* A path is a `String`.  `norm` is the program's normalization
  `str(path).replace('\\', '/')`; the file system stores paths in this
  canonical form (forward slashes), matching what the two `glob` loops of
  `get_gif_list` produce after normalization, so existence checks compare
  normalized strings.
* The file system is three lists of existing file paths: the `*.gif` files
  discovered in `gif_dir` (`builtin`, discovery order), the `*.gif` files
  discovered in `user_gif_dir` (`user`), and every other existing file
  (`other`).  When the two directories are the same path (the development
  layout), `builtin` and `user` describe the same directory and are kept
  equal by every file-system update.
* The persisted config file is `ConfigFile`: missing, unparseable, or a
  parsed JSON object.  Values of the object are modelled as string lists,
  which covers every state the program itself writes
  (`{"gif_order": [...]}`) and arbitrary unknown keys.
* GUI dialogs are modelled as explicit arguments (the confirmation answer,
  the parsed index input) and explicit outcome values; `random.randint`
  is modelled by an arbitrary `r : Nat` taken modulo the list length, which
  ranges over exactly the support of the draw.
-/

namespace PuppyPet

/-- `str(path).replace('\\', '/')` on a single character. -/
def normChar (c : Char) : Char := if c = '\\' then '/' else c

/-- Path normalization used throughout `puppy_pet.py`:
`str(path).replace('\\', '/')`. -/
def norm (p : String) : String := String.mk (p.toList.map normChar)

/-- Characters of the last `/`-separated component: scan the path,
restarting the accumulator at each separator. -/
def basenameChars : List Char → List Char → List Char
  | [], acc => acc.reverse
  | c :: cs, acc =>
    if c = '/' then basenameChars cs [] else basenameChars cs (c :: acc)

/-- `os.path.basename`, in the `ntpath` semantics the program runs under
(both separators split); equivalently, the last `/`-component after
normalization. -/
def basename (p : String) : String :=
  String.mk (basenameChars (norm p).toList [])

theorem normChar_idem (c : Char) : normChar (normChar c) = normChar c := by
  unfold normChar
  by_cases h : c = '\\' <;> simp [h]

theorem norm_idem (p : String) : norm (norm p) = norm p := by
  unfold norm
  simp [List.map_map, Function.comp_def, normChar_idem]

/-- On-disk state of `config.json`: absent, present but unparseable, or a
parsed JSON object (keys mapped to path-list values). -/
inductive ConfigFile where
  | missing : ConfigFile
  | malformed : ConfigFile
  | obj : List (String × List String) → ConfigFile
deriving DecidableEq

/-- `dict.get(key)` on a parsed JSON object (JSON objects have unique keys,
so first match is the value). -/
def configGet (kvs : List (String × List String)) (k : String) :
    Option (List String) :=
  (kvs.find? (fun kv => kv.1 == k)).map (fun kv => kv.2)

/-- `GifManager.load_config`: the `custom_order` field after construction.
A missing file leaves the initial `[]`; a parse failure is caught and sets
`[]`; otherwise `config.get('gif_order', [])`. -/
def load_config (c : ConfigFile) : List String :=
  match c with
  | .missing => []
  | .malformed => []
  | .obj kvs => (configGet kvs "gif_order").getD []

/-- State of one `GifManager` plus the file system it owns. -/
structure GifManager where
  gif_dir : String
  user_gif_dir : String
  /-- `*.gif` files discovered in `gif_dir`, discovery order, normalized. -/
  builtin : List String
  /-- `*.gif` files discovered in `user_gif_dir`; equals `builtin` when the
  two directories are the same path. -/
  user : List String
  /-- Every other existing file path, normalized. -/
  other : List String
  custom_order : List String
  default_gif : Option String
  config : ConfigFile
deriving DecidableEq

/-- `GifManager.save_config`: writes `{"gif_order": custom_order}`. -/
def save_config (m : GifManager) : GifManager :=
  { m with config := .obj [("gif_order", m.custom_order)] }

/-- `GifManager.__init__` with a given disk state: directories exist,
`custom_order` comes from `load_config`, no default cached. -/
def initManager (gd ud : String) (b u o : List String) (c : ConfigFile) :
    GifManager :=
  { gif_dir := gd, user_gif_dir := ud, builtin := b, user := u, other := o,
    custom_order := load_config c, default_gif := none, config := c }

/-- The merged glob of `get_gif_list` before any reordering: built-in files,
then user files when `user_gif_dir != gif_dir`. -/
def discovered (m : GifManager) : List String :=
  m.builtin.map norm ++
    (if m.user_gif_dir ≠ m.gif_dir then m.user.map norm else [])

/-- `GifManager.get_gif_list`.  Returns the list and the mutated manager:
when `custom_order` is non-empty it is normalized and filtered to existing
files in place, and survivors come first, followed by the remaining
discovered files in discovery order. -/
def get_gif_list (m : GifManager) : List String × GifManager :=
  let gif_files := discovered m
  if m.custom_order.isEmpty then (gif_files, m)
  else
    let co := (m.custom_order.map norm).filter (fun g => gif_files.contains g)
    let others := gif_files.filter (fun g => !co.contains g)
    (co ++ others, { m with custom_order := co })

/-- The entries of the persisted order that survive the existence filter of
`get_gif_list` (normalized, in order). -/
def survivingOrder (m : GifManager) : List String :=
  (m.custom_order.map norm).filter (fun g => (discovered m).contains g)

/-- The discovered files not claimed by the surviving custom order. -/
def remainingDiscovered (m : GifManager) : List String :=
  (discovered m).filter (fun g => !(survivingOrder m).contains g)

/-- `GifManager.get_default_gif`: returns the cached `default_gif` when it is
truthy; otherwise computes the list, caches and returns its head, raising
`FileNotFoundError` (`none`) on an empty list. -/
def get_default_gif (m : GifManager) : Option String × GifManager :=
  if m.default_gif.getD "" ≠ "" then (m.default_gif, m)
  else
    let r := get_gif_list m
    match r.1 with
    | [] => (none, r.2)
    | g :: _ => (some g, { r.2 with default_gif := some g })

/-- All existing file paths. -/
def allFiles (m : GifManager) : List String := m.builtin ++ m.user ++ m.other

/-- `os.path.exists` / `Path.exists`, up to separator normalization (the
same file is reachable under either separator on the target platform). -/
def fileExists (m : GifManager) (p : String) : Bool :=
  (allFiles m).contains (norm p)

/-- `path.endswith('.gif')` as a structural test on the character list:
the last four characters are `.gif`. -/
def hasGifExt (p : String) : Bool :=
  p.toList.reverse.take 4 == ['f', 'i', 'g', '.']

/-- Effect of `shutil.copy2(source, user_gif_dir / filename)` on the disk
state: a `.gif` file appears in the user directory's glob (in both aliased
listings when the two directories are the same path); any other file merely
exists. -/
def copyInto (m : GifManager) (t : String) : GifManager :=
  if hasGifExt t then
    if m.user_gif_dir = m.gif_dir then
      { m with builtin := m.builtin ++ [t], user := m.user ++ [t] }
    else
      { m with user := m.user ++ [t] }
  else
    { m with other := m.other ++ [t] }

/-- `GifManager.add_gif`: `none` models the `FileNotFoundError` raised when
the source does not exist; otherwise the returned string is
`str(user_gif_dir / basename(source))`, and no copy happens when that
target already exists. -/
def add_gif (m : GifManager) (gif_path : String) : Option (String × GifManager) :=
  if !fileExists m gif_path then none
  else
    let filename := basename gif_path
    let target := m.user_gif_dir ++ "/" ++ filename
    if fileExists m target then some (target, m)
    else some (target, copyInto m (norm target))

/-- `os.remove(p)`: the path disappears from every listing. -/
def deletePath (m : GifManager) (p : String) : GifManager :=
  { m with builtin := m.builtin.filter (fun q => q != p),
           user := m.user.filter (fun q => q != p),
           other := m.other.filter (fun q => q != p) }

/-- The filename-fallback arm of `GifManager.remove_gif` for one directory:
if `directory / filename` exists, purge the custom order by basename, save,
delete the file, clear a basename-matching cached default, and succeed. -/
def removeByName (m : GifManager) (dir filename : String) :
    Option (Bool × GifManager) :=
  let target := norm (dir ++ "/" ++ filename)
  if fileExists m target then
    let co := m.custom_order.filter (fun q => !(basename q == filename))
    let m1 := save_config { m with custom_order := co }
    let m2 := deletePath m1 target
    let m3 :=
      match m2.default_gif with
      | some d => if d ≠ "" ∧ basename d = filename then
                    { m2 with default_gif := none }
                  else m2
      | none => m2
    some (true, m3)
  else none

/-- `GifManager.remove_gif`.  When the exact normalized path exists: purge
from the custom order every entry equal to it or sharing its basename, save
the config, delete the file, clear a matching cached default, return
`true`.  Otherwise fall back to filename matching in `gif_dir` then
`user_gif_dir`; `false` when nothing matches. -/
def remove_gif (m : GifManager) (gif_path : String) : Bool × GifManager :=
  let p := norm gif_path
  if fileExists m p then
    let co := m.custom_order.filter
      (fun q => !(norm q == p || basename q == basename p))
    let m1 := save_config { m with custom_order := co }
    let m2 := deletePath m1 p
    let m3 := if m2.default_gif = some p then { m2 with default_gif := none }
              else m2
    (true, m3)
  else
    let filename := basename p
    match removeByName m m.gif_dir filename with
    | some r => r
    | none =>
      match removeByName m m.user_gif_dir filename with
      | some r => r
      | none => (false, m)

/-- `GifManager.set_custom_order`: replace the order and persist it. -/
def set_custom_order (m : GifManager) (order : List String) : GifManager :=
  save_config { m with custom_order := order }

/-- Core of `PetWindow.switch_to_next_gif` on an already-fetched list:
`r` stands for the `random.randint(0, len-1)` draw (any `Nat`, reduced
modulo the length, which ranges over exactly the draw's support). -/
def switch_from (l : List String) (current : String) (r : Nat) :
    Option String :=
  if l.isEmpty then none
  else
    let idx := if current ≠ "" ∧ current ∈ l
               then (l.indexOf current + 1) % l.length
               else r % l.length
    some (l.getD idx "")

/-- `PetWindow.switch_to_next_gif`: fetch the list, pick the successor of
the current animation (or a random member), load it. -/
def switch_to_next_gif (m : GifManager) (current : String) (r : Nat) :
    Option String × GifManager :=
  let g := get_gif_list m
  (switch_from g.1 current r, g.2)

/-- Outcome of `PetWindow.delete_current_gif` before the deferred step. -/
inductive DeleteOutcome where
  | noCurrent : DeleteOutcome
  | cancelled : DeleteOutcome
  | lastItemProtected : DeleteOutcome
  | notFound : DeleteOutcome
  | deferred : String → String → DeleteOutcome
deriving DecidableEq

/-- `PetWindow.delete_current_gif`: `current` is `movie.fileName()`,
`confirm` the dialog answer.  With a confirmed, non-empty current path the
list is fetched and, when its length is at most 1, the deletion is refused
("至少保留一个GIF文件") with no file removed and nothing persisted;
otherwise the next entry after the first basename match becomes the
fallback and the actual deletion is deferred. -/
def delete_current_gif (m : GifManager) (current : String) (confirm : Bool) :
    DeleteOutcome × GifManager :=
  if current = "" then (.noCurrent, m)
  else if !confirm then (.cancelled, m)
  else
    let cur := norm current
    let curName := basename cur
    let g := get_gif_list m
    let l := g.1.map norm
    if l.length ≤ 1 then (.lastItemProtected, g.2)
    else
      match l.findIdx? (fun p => basename p == curName) with
      | none => (.notFound, g.2)
      | some i => (.deferred cur (l.getD ((i + 1) % l.length) ""), g.2)

/-- What `PetWindow._complete_deletion` reports and loads. -/
structure CompletionResult where
  reportedSuccess : Bool
  loadRequested : String
deriving DecidableEq

/-- `PetWindow._complete_deletion`: attempt the removal; report its result,
and in either branch hand `next_gif` to `load_animation`. -/
def complete_deletion (m : GifManager) (gif_to_delete next_gif : String) :
    CompletionResult × GifManager :=
  let r := remove_gif m gif_to_delete
  (⟨r.1, next_gif⟩, r.2)

/-- Outcome of `PetWindow.customize_gif_order`. -/
inductive OrderOutcome where
  | emptyList : OrderOutcome
  | invalidIndex : OrderOutcome
  | countMismatch : OrderOutcome
  | success : OrderOutcome
deriving DecidableEq

/-- `PetWindow.customize_gif_order`: `indices` is the user's comma-separated
input already parsed and shifted to 0-based (`int(s) - 1`).  Any index out
of range is refused, then a count mismatch is refused, then the reordered
list is stored via `set_custom_order`. -/
def customize_gif_order (m : GifManager) (indices : List Int) :
    OrderOutcome × GifManager :=
  let g := get_gif_list m
  let l := g.1
  if l.isEmpty then (.emptyList, g.2)
  else if indices.any (fun i => decide (i < 0 ∨ (l.length : Int) ≤ i)) then
    (.invalidIndex, g.2)
  else if indices.length ≠ l.length then (.countMismatch, g.2)
  else
    let new_order := indices.map (fun i => l.getD i.toNat "")
    (.success, set_custom_order g.2 new_order)

/-- Fresh `GifManager` over the same disk state, re-reading the persisted
config: "constructing a new Store that reloads from disk". -/
def reload (m : GifManager) : GifManager :=
  initManager m.gif_dir m.user_gif_dir m.builtin m.user m.other
    (save_config m).config

/-! ### Helper lemmas -/

theorem get_gif_list_eq (m : GifManager) :
    (get_gif_list m).1 = survivingOrder m ++ remainingDiscovered m := by
  unfold get_gif_list remainingDiscovered survivingOrder
  cases h : m.custom_order with
  | nil => simp
  | cons a l => rfl

theorem get_gif_list_state (m : GifManager) :
    (get_gif_list m).2.gif_dir = m.gif_dir ∧
    (get_gif_list m).2.user_gif_dir = m.user_gif_dir ∧
    (get_gif_list m).2.builtin = m.builtin ∧
    (get_gif_list m).2.user = m.user ∧
    (get_gif_list m).2.other = m.other ∧
    (get_gif_list m).2.default_gif = m.default_gif ∧
    (get_gif_list m).2.config = m.config := by
  unfold get_gif_list
  cases h : m.custom_order.isEmpty <;> simp [h]

/-! ### Claims -/

/-- Example state for C1's counterexample: the persisted custom order holds
the same existing file twice (reachable by answering "1,1" to the reorder
dialog, or by editing `config.json`). -/
def mDupOrder : GifManager :=
  { gif_dir := "/g", user_gif_dir := "/g",
    builtin := ["/g/a.gif", "/g/b.gif"], user := ["/g/a.gif", "/g/b.gif"],
    other := [], custom_order := ["/g/a.gif", "/g/a.gif"],
    default_gif := none, config := .missing }

/-- C1 counterexample: with the persisted order `["/g/a.gif", "/g/a.gif"]`
over the on-disk files `a.gif, b.gif`, `get_gif_list` returns
`[a, a, b]`, which has a duplicate normalized path — refuting the claim's
unconditional no-duplicates clause. -/
theorem get_gif_list_duplicate_cex :
    (get_gif_list mDupOrder).1 = ["/g/a.gif", "/g/a.gif", "/g/b.gif"] ∧
    ¬ (get_gif_list mDupOrder).1.Nodup := by decide

/-- C1 (amended): `get_gif_list` returns the surviving custom-order entries
first, in order, then the remaining discovered files in discovery order; it
is a pure function of the discovered files and the persisted order; and —
provided the persisted order has no duplicate normalized entries (the code
does not enforce this) — the result has no duplicate normalized paths. -/
theorem get_gif_list_spec (m : GifManager)
    (hd : (discovered m).Nodup)
    (hc : (m.custom_order.map norm).Nodup) :
    (get_gif_list m).1 = survivingOrder m ++ remainingDiscovered m ∧
    (get_gif_list m).1.Nodup ∧
    (∀ m' : GifManager, discovered m' = discovered m →
      m'.custom_order = m.custom_order →
      (get_gif_list m').1 = (get_gif_list m).1) := by
  refine ⟨get_gif_list_eq m, ?_, ?_⟩
  · rw [get_gif_list_eq]
    refine List.Nodup.append (hc.filter _) (hd.filter _) ?_
    intro x hx hy
    unfold remainingDiscovered at hy
    rw [List.mem_filter] at hy
    have hy2 := hy.2
    simp at hy2
    exact hy2 hx
  · intro m' h1 h2
    rw [get_gif_list_eq, get_gif_list_eq]
    unfold remainingDiscovered survivingOrder
    rw [h1, h2]

/-- Example state for C1's witness: a duplicate-free persisted order. -/
def mPlain : GifManager :=
  { gif_dir := "/g", user_gif_dir := "/g",
    builtin := ["/g/a.gif", "/g/b.gif", "/g/c.gif"],
    user := ["/g/a.gif", "/g/b.gif", "/g/c.gif"],
    other := [], custom_order := ["/g/b.gif", "/g/stale.gif"],
    default_gif := none, config := .missing }

/-- C1 witness: the amended theorem applied to a concrete state. -/
theorem get_gif_list_spec_witness :
    ((discovered mPlain).Nodup ∧ (mPlain.custom_order.map norm).Nodup) ∧
    (get_gif_list mPlain).1 = survivingOrder mPlain ++ remainingDiscovered mPlain ∧
    (get_gif_list mPlain).1.Nodup := by
  refine ⟨⟨by decide, by decide⟩, ?_⟩
  have h := get_gif_list_spec mPlain (by decide) (by decide)
  exact ⟨h.1, h.2.1⟩

/-- C2: on a non-empty list, when `p` sits at index `i` the switch selects
the element at `(i+1) mod N`; when `p` is absent the selection is a member
of the list for every random draw. -/
theorem switch_from_spec (l : List String) (p : String) (r : Nat)
    (hne : l ≠ []) :
    (∀ i, l.indexOf p = i → i < l.length → p ≠ "" →
      switch_from l p r = some (l.getD ((i + 1) % l.length) "")) ∧
    (p ∉ l → ∃ q, q ∈ l ∧ switch_from l p r = some q) := by
  have hemp : l.isEmpty = false := by
    cases l with
    | nil => exact absurd rfl hne
    | cons a t => rfl
  constructor
  · intro i hi hlt hp
    have hmem : p ∈ l := by
      rw [← hi] at hlt
      exact List.indexOf_lt_length.mp hlt
    unfold switch_from
    rw [hemp]
    simp only [Bool.false_eq_true, if_false]
    rw [if_pos ⟨hp, hmem⟩, hi]
  · intro hnm
    have hlen : 0 < l.length := List.length_pos.mpr hne
    have hr : r % l.length < l.length := Nat.mod_lt _ hlen
    refine ⟨l.getD (r % l.length) "", ?_, ?_⟩
    · rw [List.getD_eq_getElem _ _ hr]
      exact List.getElem_mem hr
    · unfold switch_from
      rw [hemp]
      simp only [Bool.false_eq_true, if_false]
      rw [if_neg (fun hcon => hnm hcon.2)]

/-- C2 witness: the theorem applied at `["a", "b"]`. -/
theorem switch_from_spec_witness :
    switch_from ["a", "b"] "a" 0 = some "b" ∧
    (∃ q, q ∈ ["a", "b"] ∧ switch_from ["a", "b"] "c" 5 = some q) := by
  constructor
  · have h := (switch_from_spec ["a", "b"] "a" 0 (by decide)).1 0
      (by decide) (by decide) (by decide)
    simpa using h
  · exact (switch_from_spec ["a", "b"] "c" 5 (by decide)).2 (by decide)

/-- C3: when the ordered list has at most one entry, a confirmed delete of
the current animation is refused, no file is removed from any listing, and
the persisted config is untouched. -/
theorem delete_last_item_protected (m : GifManager) (current : String)
    (h0 : current ≠ "") (h1 : (get_gif_list m).1.length ≤ 1) :
    (delete_current_gif m current true).1 = .lastItemProtected ∧
    (delete_current_gif m current true).2.builtin = m.builtin ∧
    (delete_current_gif m current true).2.user = m.user ∧
    (delete_current_gif m current true).2.other = m.other ∧
    (delete_current_gif m current true).2.config = m.config := by
  have hlen : ((get_gif_list m).1.map norm).length ≤ 1 := by simpa using h1
  have hst := get_gif_list_state m
  simp only [delete_current_gif, if_neg h0, Bool.not_true, Bool.false_eq_true,
    if_false, if_pos hlen]
  exact ⟨trivial, hst.2.2.1, hst.2.2.2.1, hst.2.2.2.2.1, hst.2.2.2.2.2.2⟩

/-- One gif on disk, no custom order. -/
def mOne : GifManager :=
  { gif_dir := "/g", user_gif_dir := "/g", builtin := ["/g/a.gif"],
    user := ["/g/a.gif"], other := [], custom_order := [],
    default_gif := none, config := .missing }

/-- C3 witness: the theorem applied to a single-gif state. -/
theorem delete_last_item_protected_witness :
    ("/g/a.gif" ≠ "" ∧ (get_gif_list mOne).1.length ≤ 1) ∧
    (delete_current_gif mOne "/g/a.gif" true).1 = .lastItemProtected ∧
    (delete_current_gif mOne "/g/a.gif" true).2.config = mOne.config := by
  refine ⟨⟨by decide, by decide⟩, ?_⟩
  have h := delete_last_item_protected mOne "/g/a.gif" (by decide) (by decide)
  exact ⟨h.1, h.2.2.2.2⟩

/-- Two gifs on disk, no custom order yet. -/
def mTwo : GifManager :=
  { gif_dir := "/g", user_gif_dir := "/g",
    builtin := ["/g/a.gif", "/g/b.gif"], user := ["/g/a.gif", "/g/b.gif"],
    other := [], custom_order := [], default_gif := none,
    config := .missing }

/-- C4: code bug.  The index input `[0, 0]` (user text "1,1") over the
two-gif list is a non-permutation — a duplicate index, with gif 2 never
referenced — yet it passes both validation checks (all indices in range,
count matches) and is persisted as the duplicated order `[a, a]`,
contradicting the dialog's own requirement that every gif be included. -/
theorem customize_accepts_duplicate_indices :
    (customize_gif_order mTwo [0, 0]).1 = .success ∧
    (customize_gif_order mTwo [0, 0]).2.custom_order =
      ["/g/a.gif", "/g/a.gif"] ∧
    (customize_gif_order mTwo [0, 0]).2.config =
      .obj [("gif_order", ["/g/a.gif", "/g/a.gif"])] := by decide

/-- State in which the cached default is no longer the list head: files
`a, b` discovered, default `a` cached by an earlier call, order later set
to `[b, a]`. -/
def mStale : GifManager :=
  { gif_dir := "/g", user_gif_dir := "/g",
    builtin := ["/g/a.gif", "/g/b.gif"], user := ["/g/a.gif", "/g/b.gif"],
    other := [], custom_order := ["/g/b.gif", "/g/a.gif"],
    default_gif := some "/g/a.gif",
    config := .obj [("gif_order", ["/g/b.gif", "/g/a.gif"])] }

/-- C5 counterexample: with a default cached, `get_default_gif` returns the
cached path rather than the first element of the current ordered list. -/
theorem get_default_stale_cex :
    (get_default_gif mStale).1 = some "/g/a.gif" ∧
    (get_gif_list mStale).1.head? = some "/g/b.gif" ∧
    (get_default_gif mStale).1 ≠ (get_gif_list mStale).1.head? := by decide

/-- C5 (amended): when no default is cached (`default_gif` unset, as at
startup or after the current gif's removal), `get_default_gif` returns
exactly the head of the current ordered list — `none` (the
`FileNotFoundError`) when that list is empty. -/
theorem get_default_fresh_spec (m : GifManager)
    (h : m.default_gif = none) :
    (get_default_gif m).1 = (get_gif_list m).1.head? := by
  unfold get_default_gif
  rw [h]
  simp only [Option.getD_none, ne_eq, not_true_eq_false, if_false]
  cases hl : (get_gif_list m).1 <;> simp [hl]

/-- C5 witness: the amended theorem applied to a concrete fresh state. -/
theorem get_default_fresh_witness :
    mTwo.default_gif = none ∧
    (get_default_gif mTwo).1 = (get_gif_list mTwo).1.head? :=
  ⟨rfl, get_default_fresh_spec mTwo rfl⟩

theorem fileExists_norm (m : GifManager) (q : String) :
    fileExists m (norm q) = fileExists m q := by
  simp [fileExists, norm_idem]

theorem copyInto_dirs (m : GifManager) (t : String) :
    (copyInto m t).gif_dir = m.gif_dir ∧
    (copyInto m t).user_gif_dir = m.user_gif_dir := by
  unfold copyInto
  split
  · split <;> exact ⟨rfl, rfl⟩
  · exact ⟨rfl, rfl⟩

theorem mem_allFiles_copyInto (m : GifManager) (t q : String)
    (h : q ∈ allFiles m) : q ∈ allFiles (copyInto m t) := by
  unfold allFiles at h
  unfold allFiles copyInto
  split
  · split <;> (simp at h ⊢; tauto)
  · simp at h ⊢; tauto

theorem fileExists_copyInto_of (m : GifManager) (t q : String)
    (h : fileExists m q = true) : fileExists (copyInto m t) q = true := by
  simp only [fileExists] at h ⊢
  simp at h ⊢
  exact mem_allFiles_copyInto m t _ h

theorem fileExists_copyInto_self (m : GifManager) (t : String)
    (ht : norm t = t) : fileExists (copyInto m t) t = true := by
  have hmem : t ∈ allFiles (copyInto m t) := by
    unfold allFiles copyInto
    split
    · split <;> simp
    · simp
  simp only [fileExists, ht]
  exact List.elem_iff.mpr hmem

/-- C6: importing an existing source file twice is idempotent — the second
call returns the same target path as the first and changes nothing (no
second copy is made). -/
theorem add_gif_idempotent (m : GifManager) (p : String)
    (h : fileExists m p = true) :
    ∃ t m1, add_gif m p = some (t, m1) ∧ add_gif m1 p = some (t, m1) := by
  cases ht : fileExists m (m.user_gif_dir ++ "/" ++ basename p) with
  | true =>
    exact ⟨m.user_gif_dir ++ "/" ++ basename p, m,
      by simp [add_gif, h, ht], by simp [add_gif, h, ht]⟩
  | false =>
    refine ⟨m.user_gif_dir ++ "/" ++ basename p,
      copyInto m (norm (m.user_gif_dir ++ "/" ++ basename p)), ?_, ?_⟩
    · simp [add_gif, h, ht]
    · have h1 : fileExists
          (copyInto m (norm (m.user_gif_dir ++ "/" ++ basename p))) p = true :=
        fileExists_copyInto_of m _ p h
      have h2 : fileExists
          (copyInto m (norm (m.user_gif_dir ++ "/" ++ basename p)))
          (m.user_gif_dir ++ "/" ++ basename p) = true := by
        rw [← fileExists_norm]
        exact fileExists_copyInto_self m _ (norm_idem _)
      simp [add_gif, (copyInto_dirs m _).2, h1, h2]

/-- Disk state with two gifs plus an external source file to import. -/
def mSrc : GifManager := { mTwo with other := ["/src/dog.gif"] }

/-- C6 witness: the theorem applied to a concrete import. -/
theorem add_gif_idempotent_witness :
    fileExists mSrc "/src/dog.gif" = true ∧
    ∃ t m1, add_gif mSrc "/src/dog.gif" = some (t, m1) ∧
      add_gif m1 "/src/dog.gif" = some (t, m1) :=
  ⟨by decide, add_gif_idempotent mSrc "/src/dog.gif" (by decide)⟩

/-- C7: when the underlying removal reports the file as not found
(`remove_gif` returns `false`), the completion step still hands the
precomputed fallback path to `load_animation` while reporting the removal
as failed, and performs no further state change beyond the removal
attempt. -/
theorem complete_deletion_fallback (m : GifManager) (p n : String)
    (h : (remove_gif m p).1 = false) :
    (complete_deletion m p n).1.reportedSuccess = false ∧
    (complete_deletion m p n).1.loadRequested = n ∧
    (complete_deletion m p n).2 = (remove_gif m p).2 :=
  ⟨h, rfl, rfl⟩

/-- C7 witness: deleting a path that exists nowhere still loads the
fallback. -/
theorem complete_deletion_fallback_witness :
    (remove_gif mTwo "/g/zz.gif").1 = false ∧
    (complete_deletion mTwo "/g/zz.gif" "/g/a.gif").1.reportedSuccess = false ∧
    (complete_deletion mTwo "/g/zz.gif" "/g/a.gif").1.loadRequested =
      "/g/a.gif" :=
  ⟨by decide, (complete_deletion_fallback mTwo "/g/zz.gif" "/g/a.gif"
      (by decide)).1,
    (complete_deletion_fallback mTwo "/g/zz.gif" "/g/a.gif" (by decide)).2.1⟩

/-- C8: persisting the current order and constructing a new manager that
reloads from the written config reproduces the same order, and that order
filtered to the files that still exist is the prefix of the reloaded
manager's ordered list. -/
theorem save_load_round_trip (m : GifManager) :
    (reload m).custom_order = m.custom_order ∧
    survivingOrder m <+: (get_gif_list (reload m)).1 := by
  have hco : (reload m).custom_order = m.custom_order := by
    simp [reload, initManager, save_config, load_config, configGet]
  have hd : discovered (reload m) = discovered m := rfl
  have hs : survivingOrder (reload m) = survivingOrder m := by
    unfold survivingOrder
    rw [hco, hd]
  refine ⟨hco, remainingDiscovered (reload m), ?_⟩
  rw [get_gif_list_eq, hs]

/-- C9: config loading is total and non-fatal — a missing file yields the
empty order, a malformed file yields the empty order without failing, and
a parsed object yields exactly the `gif_order` value (empty when the key
is absent) with every unknown key ignored. -/
theorem load_config_total :
    load_config .missing = [] ∧
    load_config .malformed = [] ∧
    (∀ kvs (k : String) (v : List String), k ≠ "gif_order" →
      load_config (.obj ((k, v) :: kvs)) = load_config (.obj kvs)) ∧
    (∀ kvs, configGet kvs "gif_order" = none → load_config (.obj kvs) = []) ∧
    (∀ kvs o, configGet kvs "gif_order" = some o →
      load_config (.obj kvs) = o) := by
  refine ⟨rfl, rfl, ?_, ?_, ?_⟩
  · intro kvs k v hk
    have hb : (k == "gif_order") = false := by
      simp [hk]
    simp [load_config, configGet, List.find?_cons, hb]
  · intro kvs h
    simp [load_config, h]
  · intro kvs o h
    simp [load_config, h]

/-- C9 witness: a config with an unknown key and a `gif_order` key loads
exactly the listed order. -/
theorem load_config_total_witness :
    load_config (.obj [("theme", ["dark"]), ("gif_order", ["/g/a.gif"])]) =
      ["/g/a.gif"] := by
  have h := load_config_total
  rw [h.2.2.1 _ "theme" ["dark"] (by decide)]
  exact h.2.2.2.2 _ _ rfl

/-- C10: deleting by an exact existing path reports success, purges from
the persisted custom order every entry matching the deleted file by
normalized path OR by basename, and persists the purged order — so order
entries naming distinct, still-existing same-named files in the other root
are removed as well. -/
theorem remove_gif_purges_basename (m : GifManager) (p : String)
    (h : fileExists m (norm p) = true) :
    (remove_gif m p).1 = true ∧
    (remove_gif m p).2.custom_order = m.custom_order.filter
      (fun q => !(norm q == norm p || basename q == basename (norm p))) ∧
    (remove_gif m p).2.config =
      .obj [("gif_order", (remove_gif m p).2.custom_order)] := by
  simp only [remove_gif, h, if_true]
  refine ⟨trivial, ?_, ?_⟩
  · split <;> rfl
  · split <;> rfl

/-- Two distinct roots holding same-named files `x.gif`, all three files in
the custom order. -/
def mTwoRoots : GifManager :=
  { gif_dir := "/b", user_gif_dir := "/u",
    builtin := ["/b/x.gif", "/b/y.gif"], user := ["/u/x.gif"],
    other := [], custom_order := ["/b/x.gif", "/u/x.gif", "/b/y.gif"],
    default_gif := none, config := .missing }

/-- C10 witness: deleting `/b/x.gif` also purges the order entry
`/u/x.gif`, which names a distinct file that still exists afterwards. -/
theorem remove_gif_purges_basename_witness :
    fileExists mTwoRoots (norm "/b/x.gif") = true ∧
    (remove_gif mTwoRoots "/b/x.gif").1 = true ∧
    (remove_gif mTwoRoots "/b/x.gif").2.custom_order = ["/b/y.gif"] ∧
    fileExists (remove_gif mTwoRoots "/b/x.gif").2 "/u/x.gif" = true := by
  refine ⟨by decide, ?_, ?_, by decide⟩
  · exact (remove_gif_purges_basename mTwoRoots "/b/x.gif" (by decide)).1
  · have h := (remove_gif_purges_basename mTwoRoots "/b/x.gif"
      (by decide)).2.1
    rw [h]
    decide

end PuppyPet
